import Mathlib

/-!
Verification of `repo_analyzer/file_summary.py`: a shallow embedding of the
scanner (`scan_files`), the classifier (`_get_language`,
`_generate_heuristic_summary`), the pattern matcher (`_matches_pattern`) and
the reporter (`generate_file_summaries`), together with theorems settling the
specification claims.

Python strings are sequences of code points; we model them as Lean `String`
and perform slicing and comparison on the underlying `List Char`.
-/

/-- Whether the character list `cs` starts with the list `p`
(model of Python `str.startswith`). -/
def startsWithL : List Char → List Char → Bool
  | _, [] => true
  | [], _ :: _ => false
  | c :: cs, p :: ps => c == p && startsWithL cs ps

/-- Whether `sub` occurs contiguously inside `cs`
(model of Python `sub in s`). -/
def containsL : List Char → List Char → Bool
  | [], sub => startsWithL [] sub
  | c :: cs, sub => startsWithL (c :: cs) sub || containsL cs sub

/-- Python `s.startswith(p)`. -/
def strStarts (s p : String) : Bool := startsWithL s.data p.data

/-- Python `s.endswith(p)`. -/
def strEnds (s p : String) : Bool := startsWithL s.data.reverse p.data.reverse

/-- Python `sub in s` (contiguous substring test). -/
def strContains (s sub : String) : Bool := containsL s.data sub.data

/-- Python `s[1:]`. -/
def strDropFirst (s : String) : String := String.mk (s.data.drop 1)

/-- Python `s[:-1]`. -/
def strDropLastChar (s : String) : String := String.mk (s.data.dropLast)

/-- Python `s.lower()` (ASCII case folding, as used on ASCII file names). -/
def strLower (s : String) : String := String.mk (s.data.map Char.toLower)

/-- Lexicographic `≤` on character lists by code point
(the order Python uses to compare strings). -/
def leL : List Char → List Char → Bool
  | [], _ => true
  | _ :: _, [] => false
  | a :: as, b :: bs => if a == b then leL as bs else decide (a < b)

/-- Python `s <= t` string comparison (lexicographic by code point). -/
def leString (s t : String) : Bool := leL s.data t.data

/--
`_matches_pattern(filename, patterns)` from `file_summary.py`: iterate the
patterns in order; a pattern beginning with `*` is a suffix test on its
remainder, otherwise a pattern ending with `*` is a first-character-prefix
test on the pattern minus its last character, otherwise an exact test;
return `True` at the first match and `False` after the loop.
-/
def matches_pattern (filename : String) : List String → Bool
  | [] => false
  | p :: ps =>
    (if strStarts p "*" then strEnds filename (strDropFirst p)
     else if strEnds p "*" then strStarts filename (strDropLastChar p)
     else filename == p) || matches_pattern filename ps

/--
The pattern-match semantics as the specification states them: a pattern
beginning with `*` matches iff the filename ends with the pattern's
remainder; a pattern ending with `*` (and not beginning with one) matches
iff the filename starts with the pattern minus the trailing `*`; any other
pattern matches iff it equals the filename exactly.
-/
def PatMatchSpec (p filename : String) : Prop :=
  (strStarts p "*" = true ∧ strEnds filename (strDropFirst p) = true) ∨
  (strStarts p "*" = false ∧ strEnds p "*" = true ∧
    strStarts filename (strDropLastChar p) = true) ∨
  (strStarts p "*" = false ∧ strEnds p "*" = false ∧ filename = p)

/--
Python `pathlib` stem/suffix split of a final path component: the suffix is
the substring from the last `.` provided that dot is neither the first nor
the last character; otherwise the suffix is empty and the stem is the whole
name.
-/
def splitNameExt (fname : String) : String × String :=
  let cs := fname.data
  let dotIdxs := (List.range cs.length).filter (fun i => cs.getD i ' ' == '.')
  match dotIdxs.getLast? with
  | some i =>
    if 0 < i ∧ i + 1 < cs.length then (String.mk (cs.take i), String.mk (cs.drop i))
    else (fname, "")
  | none => (fname, "")

/-- `Path.stem` of a file name. -/
def stemOf (fname : String) : String := (splitNameExt fname).1

/-- `Path.suffix` of a file name (including the leading dot, or empty). -/
def suffixOf (fname : String) : String := (splitNameExt fname).2

/-- The `LANGUAGE_MAP` extension table of `file_summary.py`, in source order. -/
def LANGUAGE_MAP : List (String × String) :=
  [(".py", "Python"), (".js", "JavaScript"), (".ts", "TypeScript"),
   (".tsx", "TypeScript"), (".jsx", "JavaScript"), (".java", "Java"),
   (".go", "Go"), (".rs", "Rust"), (".rb", "Ruby"), (".php", "PHP"),
   (".c", "C"), (".cpp", "C++"), (".cc", "C++"), (".cxx", "C++"),
   (".h", "C/C++"), (".hpp", "C++"), (".cs", "C#"), (".swift", "Swift"),
   (".kt", "Kotlin"), (".scala", "Scala"), (".sh", "Shell"),
   (".bash", "Bash"), (".zsh", "Zsh"), (".ps1", "PowerShell"), (".r", "R"),
   (".m", "Objective-C"), (".sql", "SQL"), (".html", "HTML"),
   (".css", "CSS"), (".scss", "SCSS"), (".sass", "Sass"), (".less", "Less"),
   (".vue", "Vue"), (".md", "Markdown"), (".rst", "reStructuredText"),
   (".yml", "YAML"), (".yaml", "YAML"), (".json", "JSON"), (".xml", "XML"),
   (".toml", "TOML"), (".ini", "INI"), (".cfg", "Config"),
   (".conf", "Config")]

/-- `_get_language`: look up the lower-cased extension in `LANGUAGE_MAP`,
falling back to `"Unknown"`. -/
def get_language (fname : String) : String :=
  (LANGUAGE_MAP.lookup (strLower (suffixOf fname))).getD "Unknown"

/-- `name.replace('_', ' ').replace('-', ' ')` applied to the stem. -/
def wordsOf (fname : String) : String :=
  String.mk ((stemOf fname).data.map (fun c => if c == '_' || c == '-' then ' ' else c))

/--
The ordered first-match-wins rule chain of `_generate_heuristic_summary`,
operating on the final path component `fname` and the relative directory
parts `pathParts` (the source computes both before the chain runs).
Each branch mirrors one `if`/`return` of the source, in source order.
-/
def summaryFromParts (fname : String) (pathParts : List String) : String :=
  let name := stemOf fname
  let extension := strLower (suffixOf fname)
  let language := get_language fname
  let nameLower := strLower name
  let dflt :=
    if language ≠ "Unknown" then language ++ " module for " ++ wordsOf fname
    else "Source file for " ++ wordsOf fname
  if ["config", "configuration", "settings"].contains nameLower then
    language ++ " configuration file"
  else if strStarts nameLower "test_" || strEnds nameLower "_test" ||
      strStarts nameLower "test" then
    language ++ " test file"
  else if ["main", "index", "app", "__main__"].contains nameLower then
    language ++ " main entry point"
  else if ["cli", "command", "commands"].contains nameLower then
    language ++ " command-line interface"
  else if ["utils", "util", "utilities", "helpers", "helper"].contains nameLower then
    language ++ " utility functions"
  else if ["model", "models", "schema", "schemas"].contains nameLower then
    language ++ " data models"
  else if ["controller", "controllers", "handler", "handlers"].contains nameLower then
    language ++ " request handlers"
  else if ["view", "views", "template", "templates"].contains nameLower then
    language ++ " view templates"
  else if ["service", "services"].contains nameLower then
    language ++ " service layer"
  else if ["repository", "repositories", "dao"].contains nameLower then
    language ++ " data access layer"
  else if strContains nameLower "api" then
    language ++ " API implementation"
  else if strContains nameLower "db" || strContains nameLower "database" then
    language ++ " database operations"
  else if strContains nameLower "router" || strContains nameLower "routes" then
    language ++ " routing configuration"
  else if strContains nameLower "middleware" then
    language ++ " middleware component"
  else if [".jsx", ".tsx", ".vue"].contains extension ||
      strContains nameLower "component" then
    language ++ " UI component"
  else if ["__init__", "index", "mod"].contains nameLower then
    if pathParts.contains "tests" || pathParts.contains "test" then
      language ++ " test module initialization"
    else
      language ++ " module initialization"
  else
    match pathParts with
    | topDir0 :: _ =>
      let topDir := strLower topDir0
      if ["tests", "test"].contains topDir then language ++ " test implementation"
      else if ["src", "lib", "core"].contains topDir then
        language ++ " core implementation"
      else if ["scripts", "bin"].contains topDir then
        language ++ " utility script"
      else if ["docs", "documentation"].contains topDir then
        language ++ " documentation file"
      else if ["examples", "demos", "samples"].contains topDir then
        language ++ " example code"
      else dflt
    | [] => dflt

/-- Component-level test that `rootParts` is a path-prefix of `fileParts`
(the success condition of Python `Path.relative_to`). -/
def isUnder : List String → List String → Bool
  | [], _ => true
  | _ :: _, [] => false
  | r :: rs, f :: fs => r == f && isUnder rs fs

/-- `rel_path.parent.parts` from the `try/except ValueError` block:
the directory components between the root and the file, and `[]` when the
file path does not lie under the root. -/
def relParentParts (fileParts rootParts : List String) : List String :=
  if isUnder rootParts fileParts then (fileParts.drop rootParts.length).dropLast
  else []

/-- `_generate_heuristic_summary(file_path, root_path)` with both paths as
component lists. -/
def generate_heuristic_summary (fileParts rootParts : List String) : String :=
  summaryFromParts (fileParts.getLastD "") (relParentParts fileParts rootParts)

/-- Every summary produced by the rule chain is either the detected
language followed by a non-empty suffix, or the unknown-language default
branch `"Source file for <words>"`. -/
def SummaryShape (fname : String) (s : String) : Prop :=
  (∃ suf, suf ≠ "" ∧ s = get_language fname ++ suf) ∨
  (get_language fname = "Unknown" ∧ s = "Source file for " ++ wordsOf fname)

/-- A node of the modelled filesystem: a regular file or a directory, each
carrying whether the entry is a symbolic link; directory children are
listed in (unspecified) enumeration order. A symlinked directory keeps its
target's children in the model, but the scanner never descends into it. -/
inductive FsNode where
  | file (symlink : Bool)
  | dir (symlink : Bool) (children : List (String × FsNode))

/-- Whether a node is a directory. -/
def nodeIsDir : FsNode → Bool
  | FsNode.dir _ _ => true
  | FsNode.file _ => false

/-- The symlink flag of a node (`Path.is_symlink()`). -/
def nodeSymlink : FsNode → Bool
  | FsNode.dir s _ => s
  | FsNode.file s => s

/-- The `filenames` entries of one `os.walk` triple: the file children of a
directory, each with its symlink flag. -/
def fileEntries (children : List (String × FsNode)) : List (String × Bool) :=
  children.filterMap (fun c => match c.2 with
    | FsNode.file s => some (c.1, s)
    | FsNode.dir _ _ => none)

/-- The per-file filter of the `scan_files` loop: skip symlinks, then skip
names failing a non-empty include-pattern list, then skip names matching a
non-empty exclude-pattern list. -/
def keepFile (include_patterns exclude_patterns : List String)
    (e : String × Bool) : Bool :=
  !e.2 && (include_patterns.isEmpty || matches_pattern e.1 include_patterns) &&
    (exclude_patterns.isEmpty || !matches_pattern e.1 exclude_patterns)

/-- The in-place `dirnames` pruning of `scan_files`: descend only into
directory entries whose name is not in `exclude_dirs` and which are not
symlinks. -/
def keepDir (exclude_dirs : List String) (n : String) (c : FsNode) : Bool :=
  nodeIsDir c && !(exclude_dirs.contains n) && !(nodeSymlink c)

/-- `sorted(filenames)`: sort the file entries of one directory by name
(Python sorts the name strings lexicographically by code point). -/
def sortByName (l : List (String × Bool)) : List (String × Bool) :=
  List.insertionSort (fun a b => leString a.1 b.1 = true) l

mutual

/-- The `os.walk(root_path, followlinks=False)` collection loop of
`scan_files`, one directory at a time: the sorted file names of the
directory filtered by the symlink check and the include/exclude patterns,
followed by the walk of the pruned subdirectory list in enumeration order.
Paths are collected as root-relative component lists. -/
def walkNode (include_patterns exclude_patterns exclude_dirs : List String) :
    FsNode → List (List String)
  | FsNode.file _ => []
  | FsNode.dir _ children =>
    ((sortByName (fileEntries children)).filter
        (keepFile include_patterns exclude_patterns)).map (fun e => [e.1]) ++
      walkChildren include_patterns exclude_patterns exclude_dirs children

/-- Recursive descent of `os.walk` into the pruned `dirnames` list, in
enumeration order. -/
def walkChildren (include_patterns exclude_patterns exclude_dirs : List String) :
    List (String × FsNode) → List (List String)
  | [] => []
  | (n, c) :: rest =>
    (if keepDir exclude_dirs n c then
      (walkNode include_patterns exclude_patterns exclude_dirs c).map
        (fun parts => n :: parts)
    else []) ++ walkChildren include_patterns exclude_patterns exclude_dirs rest

end

/-- The full path string the source builds with `Path(dirpath) / filename`,
starting from the root path it was given. -/
def fullPath (rootStr : String) (parts : List String) : String :=
  rootStr ++ "/" ++ String.intercalate "/" parts

/-- The order of `sorted(matching_files)`: Python compares `Path` values by
their full path string. -/
def pathLe (rootStr : String) (a b : List String) : Prop :=
  leString (fullPath rootStr a) (fullPath rootStr b) = true

/-- String-level form of the same order, for the collected path strings. -/
def strLe (s t : String) : Prop := leString s t = true

instance (rootStr : String) : DecidableRel (pathLe rootStr) := fun a b => by
  unfold pathLe; infer_instance

/-- `sorted(matching_files)`: the final deterministic sort of the collected
paths by full path string. -/
def sortPaths (rootStr : String) (l : List (List String)) : List (List String) :=
  List.insertionSort (pathLe rootStr) l

/-- `scan_files(root_path, include_patterns, exclude_patterns, exclude_dirs)`.
The filesystem under the root path is `rootFs`: `none` when the root does
not exist and a `file` node when it is not a directory (in both cases
`os.walk` swallows the enumeration error — its default `onerror=None` —
and yields no triples); otherwise the directory tree. Entries are returned
as root-relative component lists, sorted by full path string. -/
def scan_files (rootStr : String) (rootFs : Option FsNode)
    (include_patterns exclude_patterns exclude_dirs : List String) :
    List (List String) :=
  let matching_files := match rootFs with
    | some (FsNode.dir s children) =>
      walkNode include_patterns exclude_patterns exclude_dirs (FsNode.dir s children)
    | _ => []
  sortPaths rootStr matching_files

/-- `GoodPath t parts`: following `parts` from the root `t` reaches a
non-symlink regular file, and every intermediate directory on the way is a
non-symlink directory. -/
inductive GoodPath : FsNode → List String → Prop where
  | file (s : Bool) (children : List (String × FsNode)) (name : String)
      (h : (name, FsNode.file false) ∈ children) :
      GoodPath (FsNode.dir s children) [name]
  | step (s : Bool) (children : List (String × FsNode)) (name : String)
      (cs : List (String × FsNode)) (rest : List String)
      (h : (name, FsNode.dir false cs) ∈ children)
      (htail : GoodPath (FsNode.dir false cs) rest) :
      GoodPath (FsNode.dir s children) (name :: rest)

mutual

/-- The scan as claim C8 describes the effective behaviour of the top-level
entry point: the same traversal as `walkNode`, but with no file-exclude
filtering at the leaves. Written from the spec's words, to be compared
with `walkNode` called with an empty exclude-pattern list. -/
def walkNodeNoExcl (include_patterns exclude_dirs : List String) :
    FsNode → List (List String)
  | FsNode.file _ => []
  | FsNode.dir _ children =>
    ((sortByName (fileEntries children)).filter (fun e =>
        !e.2 && (include_patterns.isEmpty || matches_pattern e.1 include_patterns))).map
      (fun e => [e.1]) ++
      walkChildrenNoExcl include_patterns exclude_dirs children

/-- Descent part of `walkNodeNoExcl`. -/
def walkChildrenNoExcl (include_patterns exclude_dirs : List String) :
    List (String × FsNode) → List (List String)
  | [] => []
  | (n, c) :: rest =>
    (if keepDir exclude_dirs n c then
      (walkNodeNoExcl include_patterns exclude_dirs c).map (fun parts => n :: parts)
    else []) ++ walkChildrenNoExcl include_patterns exclude_dirs rest

end

/-- The spec-side scan with no file-exclude filtering (claim C8),
sorted exactly as `scan_files` sorts. -/
def scan_files_no_exclude (rootStr : String) (rootFs : Option FsNode)
    (include_patterns exclude_dirs : List String) : List (List String) :=
  let matching_files := match rootFs with
    | some (FsNode.dir s children) =>
      walkNodeNoExcl include_patterns exclude_dirs (FsNode.dir s children)
    | _ => []
  sortPaths rootStr matching_files

/-- One iteration of the summary loop of `generate_file_summaries` for a
scanned file (given as root-relative components, so `relative_to`
succeeds): the posix relative path string, the language, and the heuristic
summary, whose relative directory parts are the components minus the file
name. -/
def entryOf (parts : List String) : String × String × String :=
  (String.intercalate "/" parts, get_language (parts.getLastD ""),
    summaryFromParts (parts.getLastD "") parts.dropLast)

/-- `markdown_content`: the `markdown_lines` of the source joined with
newlines. -/
def markdownOf (entries : List (String × String × String)) : String :=
  String.intercalate "\n"
    (["# File Summaries\n",
      "Heuristic summaries of source files based on filenames, extensions, and paths.\n",
      "Total files: " ++ toString entries.length ++ "\n"] ++
     (entries.map (fun e =>
       ["## " ++ e.1, "**Language:** " ++ e.2.1 ++ "  ",
        "**Summary:** " ++ e.2.2 ++ "\n"])).flatten)

/-- The observable outcome of one `generate_file_summaries` invocation:
the internal `summaries` record list, the artifact paths present in
`output_dir` after the call, the dry-run previews as
`(destination, byte length or entry count)` pairs, and the result
(`Except.error` models the raised `FileSummaryError`). -/
structure GenResult where
  entries : List (String × String × String)
  writes : List String
  previews : List (String × Nat)
  res : Except String Unit

/-- `generate_file_summaries(root_path, output_dir, include_patterns,
exclude_dirs, dry_run)`. The filesystem is supplied as in `scan_files`;
`writeFails` tells which `open(path, 'w')` calls raise an `OSError`, whose
message is modelled as `"write failed: " ++ path`. The scanner call passes
only the include patterns and the excluded directory names — the
`exclude_patterns` argument stays at its `None` default, normalised to
`[]`. The markdown artifact is written first, then the JSON artifact; a
failure raises and is wrapped into `FileSummaryError`, aborting the rest. -/
def generate_file_summaries (rootStr : String) (rootFs : Option FsNode)
    (output_dir : String) (include_patterns exclude_dirs : List String)
    (dry_run : Bool) (writeFails : String → Bool) : GenResult :=
  let files := scan_files rootStr rootFs include_patterns [] exclude_dirs
  if files.isEmpty then
    ⟨[], [], [], Except.ok ()⟩
  else
    let summaries := files.map entryOf
    let markdown_content := markdownOf summaries
    let markdown_path := output_dir ++ "/file-summaries.md"
    let json_path := output_dir ++ "/file-summaries.json"
    if dry_run then
      ⟨summaries, [],
        [(markdown_path, markdown_content.length), (json_path, summaries.length)],
        Except.ok ()⟩
    else if writeFails markdown_path then
      ⟨summaries, [], [],
        Except.error ("Failed to generate file summaries: write failed: " ++ markdown_path)⟩
    else if writeFails json_path then
      ⟨summaries, [markdown_path], [],
        Except.error ("Failed to generate file summaries: write failed: " ++ json_path)⟩
    else
      ⟨summaries, [markdown_path, json_path], [], Except.ok ()⟩

/-! ## Theorems -/

theorem startsWithL_nil (cs : List Char) : startsWithL cs [] = true := by
  cases cs <;> rfl

theorem startsWithL_append (l s : List Char) : startsWithL (l ++ s) l = true := by
  induction l with
  | nil => simpa using startsWithL_nil s
  | cons c cs ih => simp [startsWithL, ih]

theorem containsL_of_starts (cs sub : List Char) (h : startsWithL cs sub = true) :
    containsL cs sub = true := by
  cases cs with
  | nil => simpa [containsL] using h
  | cons c t => simp [containsL, h]

theorem strContains_of_data (s a : String) (l : List Char) (h : s.data = a.data ++ l) :
    strContains s a = true := by
  have h1 : startsWithL s.data a.data = true := by rw [h]; exact startsWithL_append _ _
  exact containsL_of_starts _ _ h1

theorem strContains_append (a b : String) : strContains (a ++ b) a = true :=
  strContains_of_data _ _ b.data (by simp [String.data_append])

theorem str_ne_empty (s : String) (h : s.data ≠ []) : s ≠ "" := by
  intro hc; exact h (by rw [hc])

theorem ne_empty_right (a b : String) (h : b ≠ "") : a ++ b ≠ "" := by
  apply str_ne_empty
  rw [String.data_append]
  intro hc
  rcases List.append_eq_nil.mp hc with ⟨-, h2⟩
  exact h (String.ext h2)

theorem ne_empty_left (a b : String) (h : a ≠ "") : a ++ b ≠ "" := by
  apply str_ne_empty
  rw [String.data_append]
  intro hc
  rcases List.append_eq_nil.mp hc with ⟨h1, -⟩
  exact h (String.ext h1)

theorem ite_prop {α : Sort _} {P : α → Prop} {c : Prop} [Decidable c] {a b : α}
    (ha : c → P a) (hb : ¬c → P b) : P (if c then a else b) := by
  split
  · exact ha ‹_›
  · exact hb ‹_›

/-- C6: `_matches_pattern` holds exactly when some pattern in the list
matches the filename under the spec's semantics: suffix match for a
pattern beginning with `*`, prefix match for a pattern ending with `*`
alone, exact match otherwise; no mid-pattern wildcard support. -/
theorem C6_matches_pattern_iff (filename : String) (ps : List String) :
    matches_pattern filename ps = true ↔ ∃ p ∈ ps, PatMatchSpec p filename := by
  induction ps with
  | nil => simp [matches_pattern]
  | cons p ps ih =>
    simp only [matches_pattern, Bool.or_eq_true, ih, List.mem_cons]
    constructor
    · rintro (h | ⟨q, hq, hm⟩)
      · refine ⟨p, Or.inl rfl, ?_⟩
        unfold PatMatchSpec
        by_cases h1 : strStarts p "*" = true
        · exact Or.inl ⟨h1, by simpa [h1] using h⟩
        · simp only [Bool.not_eq_true] at h1
          by_cases h2 : strEnds p "*" = true
          · refine Or.inr (Or.inl ⟨h1, h2, ?_⟩)
            simpa [h1, h2] using h
          · simp only [Bool.not_eq_true] at h2
            refine Or.inr (Or.inr ⟨h1, h2, ?_⟩)
            simpa [h1, h2] using h
      · exact ⟨q, Or.inr hq, hm⟩
    · rintro ⟨q, (rfl | hq), hm⟩
      · left
        unfold PatMatchSpec at hm
        rcases hm with ⟨h1, h2⟩ | ⟨h1, h2, h3⟩ | ⟨h1, h2, h3⟩
        · simp [h1, h2]
        · simp [h1, h2, h3]
        · simp [h1, h2, h3]
      · exact Or.inr ⟨q, hq, hm⟩

theorem dflt_shape (fname : String) :
    SummaryShape fname
      (if get_language fname ≠ "Unknown" then
        get_language fname ++ " module for " ++ wordsOf fname
      else "Source file for " ++ wordsOf fname) :=
  ite_prop
    (fun _ => Or.inl ⟨" module for " ++ wordsOf fname, ne_empty_left _ _ (by decide),
      String.ext (by simp [String.data_append, List.append_assoc])⟩)
    (fun h => Or.inr ⟨not_not.mp h, rfl⟩)

theorem summary_shape (fname : String) (pathParts : List String) :
    SummaryShape fname (summaryFromParts fname pathParts) := by
  unfold summaryFromParts
  refine ite_prop (fun _ => Or.inl ⟨" configuration file", by decide, rfl⟩) (fun _ => ?_)
  refine ite_prop (fun _ => Or.inl ⟨" test file", by decide, rfl⟩) (fun _ => ?_)
  refine ite_prop (fun _ => Or.inl ⟨" main entry point", by decide, rfl⟩) (fun _ => ?_)
  refine ite_prop (fun _ => Or.inl ⟨" command-line interface", by decide, rfl⟩) (fun _ => ?_)
  refine ite_prop (fun _ => Or.inl ⟨" utility functions", by decide, rfl⟩) (fun _ => ?_)
  refine ite_prop (fun _ => Or.inl ⟨" data models", by decide, rfl⟩) (fun _ => ?_)
  refine ite_prop (fun _ => Or.inl ⟨" request handlers", by decide, rfl⟩) (fun _ => ?_)
  refine ite_prop (fun _ => Or.inl ⟨" view templates", by decide, rfl⟩) (fun _ => ?_)
  refine ite_prop (fun _ => Or.inl ⟨" service layer", by decide, rfl⟩) (fun _ => ?_)
  refine ite_prop (fun _ => Or.inl ⟨" data access layer", by decide, rfl⟩) (fun _ => ?_)
  refine ite_prop (fun _ => Or.inl ⟨" API implementation", by decide, rfl⟩) (fun _ => ?_)
  refine ite_prop (fun _ => Or.inl ⟨" database operations", by decide, rfl⟩) (fun _ => ?_)
  refine ite_prop (fun _ => Or.inl ⟨" routing configuration", by decide, rfl⟩) (fun _ => ?_)
  refine ite_prop (fun _ => Or.inl ⟨" middleware component", by decide, rfl⟩) (fun _ => ?_)
  refine ite_prop (fun _ => Or.inl ⟨" UI component", by decide, rfl⟩) (fun _ => ?_)
  refine ite_prop (fun _ =>
    ite_prop (fun _ => Or.inl ⟨" test module initialization", by decide, rfl⟩)
      (fun _ => Or.inl ⟨" module initialization", by decide, rfl⟩)) (fun _ => ?_)
  cases pathParts with
  | nil => exact dflt_shape fname
  | cons topDir0 tail =>
    refine ite_prop (fun _ => Or.inl ⟨" test implementation", by decide, rfl⟩) (fun _ => ?_)
    refine ite_prop (fun _ => Or.inl ⟨" core implementation", by decide, rfl⟩) (fun _ => ?_)
    refine ite_prop (fun _ => Or.inl ⟨" utility script", by decide, rfl⟩) (fun _ => ?_)
    refine ite_prop (fun _ => Or.inl ⟨" documentation file", by decide, rfl⟩) (fun _ => ?_)
    refine ite_prop (fun _ => Or.inl ⟨" example code", by decide, rfl⟩) (fun _ => ?_)
    exact dflt_shape fname

/-- C4: a file whose stem is `api_test` (for example `api_test.py`) is
classified by `_generate_heuristic_summary` as a test file: the test-name
rule (suffix `_test`) fires before the API-substring rule in the ordered
first-match-wins chain. -/
theorem C4_api_test_is_test_file (fileParts rootParts : List String)
    (h : stemOf (fileParts.getLastD "") = "api_test") :
    generate_heuristic_summary fileParts rootParts
      = get_language (fileParts.getLastD "") ++ " test file" := by
  unfold generate_heuristic_summary summaryFromParts
  simp only [h]
  rfl

/-- Witness for C4: the concrete file `r/api_test.py` scanned from root
`r` is classified as a Python test file. -/
theorem C4_witness :
    stemOf ((["r", "api_test.py"] : List String).getLastD "") = "api_test" ∧
    generate_heuristic_summary ["r", "api_test.py"] ["r"] = "Python test file" :=
  ⟨rfl, by rw [C4_api_test_is_test_file ["r", "api_test.py"] ["r"] rfl]; rfl⟩

/-- C10: a file whose stem lower-cases to `index` is classified by
`_generate_heuristic_summary` as the entry-point summary; the `index` case
of the later package/module-initializer rule (with its test-module versus
plain-module distinction) can never fire for such files because the
entry-point rule precedes it in the first-match-wins chain. -/
theorem C10_index_is_entry_point (fileParts rootParts : List String)
    (h : strLower (stemOf (fileParts.getLastD "")) = "index") :
    generate_heuristic_summary fileParts rootParts
      = get_language (fileParts.getLastD "") ++ " main entry point" := by
  unfold generate_heuristic_summary summaryFromParts
  simp only [h]
  rfl

/-- Witness for C10: the concrete file `srv/Index.ts` under root `srv`,
which sits inside a `tests`-free path, classifies as the TypeScript entry
point, not as a module initialization. -/
theorem C10_witness :
    strLower (stemOf ((["srv", "Index.ts"] : List String).getLastD "")) = "index" ∧
    generate_heuristic_summary ["srv", "Index.ts"] ["srv"]
      = "TypeScript main entry point" :=
  ⟨rfl, by rw [C10_index_is_entry_point ["srv", "Index.ts"] ["srv"] rfl]; rfl⟩

/-- C5: `_generate_heuristic_summary` is total and deterministic by
construction (it is a Lean function on paths); moreover for every file
path and root it returns a non-empty string; the result contains the
detected language label except on the unknown-language default branch;
and a path not lying under the root is treated as having empty relative
directory parts instead of failing. -/
theorem C5_summary_total (fileParts rootParts : List String) :
    generate_heuristic_summary fileParts rootParts ≠ "" ∧
    (strContains (generate_heuristic_summary fileParts rootParts)
        (get_language (fileParts.getLastD "")) = true ∨
      (get_language (fileParts.getLastD "") = "Unknown" ∧
        generate_heuristic_summary fileParts rootParts
          = "Source file for " ++ wordsOf (fileParts.getLastD ""))) ∧
    (isUnder rootParts fileParts = false →
      generate_heuristic_summary fileParts rootParts
        = summaryFromParts (fileParts.getLastD "") []) := by
  refine ⟨?_, ?_, ?_⟩
  · rcases summary_shape (fileParts.getLastD "") (relParentParts fileParts rootParts) with
      ⟨suf, hne, heq⟩ | ⟨-, heq⟩
    · unfold generate_heuristic_summary
      rw [heq]
      exact ne_empty_right _ _ hne
    · unfold generate_heuristic_summary
      rw [heq]
      exact ne_empty_left _ _ (by decide)
  · rcases summary_shape (fileParts.getLastD "") (relParentParts fileParts rootParts) with
      ⟨suf, hne, heq⟩ | ⟨hu, heq⟩
    · left
      unfold generate_heuristic_summary
      rw [heq]
      exact strContains_append _ _
    · right
      exact ⟨hu, by unfold generate_heuristic_summary; rw [heq]⟩
  · intro h
    unfold generate_heuristic_summary relParentParts
    rw [h]
    simp

/-- Witness for C5: the file `x/a.py` checked against the unrelated root
`other` still gets a summary, the summary of empty relative parts. -/
theorem C5_witness :
    generate_heuristic_summary ["x", "a.py"] ["other"] ≠ "" ∧
    generate_heuristic_summary ["x", "a.py"] ["other"] = summaryFromParts "a.py" [] :=
  ⟨(C5_summary_total ["x", "a.py"] ["other"]).1,
   (C5_summary_total ["x", "a.py"] ["other"]).2.2 rfl⟩

theorem leL_total (a b : List Char) : leL a b = true ∨ leL b a = true := by
  induction a generalizing b with
  | nil => left; rfl
  | cons x xs ih =>
    cases b with
    | nil => right; rfl
    | cons y ys =>
      by_cases hxy : x = y
      · subst hxy
        rcases ih ys with h | h
        · left; simpa [leL] using h
        · right; simpa [leL] using h
      · have hbe : (x == y) = false := beq_eq_false_iff_ne.mpr hxy
        have hbe' : (y == x) = false := beq_eq_false_iff_ne.mpr (Ne.symm hxy)
        rcases lt_or_gt_of_ne hxy with h | h
        · left; simp [leL, hbe, h]
        · right; simp [leL, hbe', h]

theorem leL_trans (a b c : List Char) (h1 : leL a b = true) (h2 : leL b c = true) :
    leL a c = true := by
  induction a generalizing b c with
  | nil => rfl
  | cons x xs ih =>
    cases b with
    | nil => simp [leL] at h1
    | cons y ys =>
      cases c with
      | nil => simp [leL] at h2
      | cons z zs =>
        by_cases hxy : x = y
        · subst hxy
          by_cases hxz : x = z
          · subst hxz
            simp only [leL, beq_self_eq_true, if_true] at h1 h2 ⊢
            exact ih ys zs h1 h2
          · have hbe : (x == z) = false := beq_eq_false_iff_ne.mpr hxz
            simp only [leL, beq_self_eq_true, if_true, hbe, if_false] at h2 ⊢
            exact h2
        · have hbe : (x == y) = false := beq_eq_false_iff_ne.mpr hxy
          have hlt : x < y := by simpa [leL, hbe] using h1
          by_cases hyz : y = z
          · subst hyz
            have hbe2 : (x == y) = false := hbe
            simp only [leL, hbe2, if_false]
            simpa using hlt
          · have hbe3 : (y == z) = false := beq_eq_false_iff_ne.mpr hyz
            have hlt2 : y < z := by simpa [leL, hbe3] using h2
            have hxz : x < z := lt_trans hlt hlt2
            have hbe4 : (x == z) = false := beq_eq_false_iff_ne.mpr (ne_of_lt hxz)
            simp [leL, hbe4, hxz]

theorem leL_antisymm (a b : List Char) (h1 : leL a b = true) (h2 : leL b a = true) :
    a = b := by
  induction a generalizing b with
  | nil =>
    cases b with
    | nil => rfl
    | cons y ys => simp [leL] at h2
  | cons x xs ih =>
    cases b with
    | nil => simp [leL] at h1
    | cons y ys =>
      by_cases hxy : x = y
      · subst hxy
        simp only [leL, beq_self_eq_true, if_true] at h1 h2
        rw [ih ys h1 h2]
      · have hbe : (x == y) = false := beq_eq_false_iff_ne.mpr hxy
        have hbe' : (y == x) = false := beq_eq_false_iff_ne.mpr (Ne.symm hxy)
        have hlt : x < y := by simpa [leL, hbe] using h1
        have hlt2 : y < x := by simpa [leL, hbe'] using h2
        exact absurd (lt_trans hlt hlt2) (lt_irrefl x)

theorem leString_total (s t : String) : leString s t = true ∨ leString t s = true :=
  leL_total s.data t.data

theorem leString_trans (s t u : String) (h1 : leString s t = true)
    (h2 : leString t u = true) : leString s u = true :=
  leL_trans s.data t.data u.data h1 h2

theorem leString_antisymm (s t : String) (h1 : leString s t = true)
    (h2 : leString t s = true) : s = t :=
  String.ext (leL_antisymm s.data t.data h1 h2)

theorem sortPaths_sorted (rootStr : String) (l : List (List String)) :
    List.Sorted (pathLe rootStr) (sortPaths rootStr l) := by
  haveI : IsTotal (List String) (pathLe rootStr) :=
    ⟨fun a b => leString_total (fullPath rootStr a) (fullPath rootStr b)⟩
  haveI : IsTrans (List String) (pathLe rootStr) :=
    ⟨fun a b c h1 h2 => leString_trans _ _ _ h1 h2⟩
  exact List.sorted_insertionSort _ _

theorem mem_sortPaths (rootStr : String) (l : List (List String)) (p : List String) :
    p ∈ sortPaths rootStr l ↔ p ∈ l :=
  (List.perm_insertionSort _ _).mem_iff

theorem sortPaths_deterministic (rootStr : String) (l l' : List (List String))
    (h : List.Perm l l') :
    (sortPaths rootStr l).map (fullPath rootStr)
      = (sortPaths rootStr l').map (fullPath rootStr) := by
  haveI : IsAntisymm String strLe := ⟨fun a b h1 h2 => leString_antisymm a b h1 h2⟩
  apply List.eq_of_perm_of_sorted (r := strLe)
  · exact (((List.perm_insertionSort _ l).trans h).trans
      (List.perm_insertionSort _ l').symm).map _
  · exact List.Pairwise.map _ (fun a b hab => hab) (sortPaths_sorted rootStr l)
  · exact List.Pairwise.map _ (fun a b hab => hab) (sortPaths_sorted rootStr l')

/-- C3: the list returned by `scan_files` is sorted ascending by the full
path string; the sort is applied to the collected walk output after
collection completes; and sorting is invariant under permutation of the
collected list, so the result is determined by the set of collected paths
alone, independent of the enumeration order of the walk. -/
theorem C3_scan_sorted_deterministic (rootStr : String) (rootFs : Option FsNode)
    (include_patterns exclude_patterns exclude_dirs : List String) :
    List.Sorted (pathLe rootStr)
      (scan_files rootStr rootFs include_patterns exclude_patterns exclude_dirs) ∧
    (∀ s children,
      scan_files rootStr (some (FsNode.dir s children)) include_patterns
          exclude_patterns exclude_dirs
        = sortPaths rootStr
            (walkNode include_patterns exclude_patterns exclude_dirs
              (FsNode.dir s children))) ∧
    (∀ l l' : List (List String), List.Perm l l' →
      (sortPaths rootStr l).map (fullPath rootStr)
        = (sortPaths rootStr l').map (fullPath rootStr)) :=
  ⟨sortPaths_sorted rootStr _, fun _ _ => rfl,
   fun l l' h => sortPaths_deterministic rootStr l l' h⟩

/-- Witness for C3: two opposite enumeration orders of the same two
collected paths sort to the same path-string list. -/
theorem C3_witness :
    (sortPaths "r" [["b"], ["a"]]).map (fullPath "r")
      = (sortPaths "r" [["a"], ["b"]]).map (fullPath "r") :=
  (C3_scan_sorted_deterministic "r" none [] [] []).2.2 [["b"], ["a"]] [["a"], ["b"]]
    (by decide)

/-- C1 (amended): when the root does not exist or is not a directory,
`os.walk` (with its default `onerror=None`) raises nothing and yields
nothing, so `scan_files` silently returns the empty list — the same value
an existing empty root produces — instead of failing. -/
theorem C1_missing_root_silent_empty (rootStr : String) (b : Bool)
    (include_patterns exclude_patterns exclude_dirs : List String) :
    scan_files rootStr none include_patterns exclude_patterns exclude_dirs = [] ∧
    scan_files rootStr (some (FsNode.file b)) include_patterns exclude_patterns
        exclude_dirs = [] ∧
    scan_files rootStr (some (FsNode.dir false [])) include_patterns
        exclude_patterns exclude_dirs = [] :=
  ⟨rfl, rfl, rfl⟩

/-- Counterexample to C1 as stated: scanning the missing root yields the
empty list as an ordinary return value; no error of any kind is produced
before (or during) traversal. -/
theorem C1_counterexample :
    scan_files "missing" none ["*.py"] [] [] = [] := rfl

theorem mem_fileEntries (children : List (String × FsNode)) (e : String × Bool)
    (h : e ∈ fileEntries children) : (e.1, FsNode.file e.2) ∈ children := by
  unfold fileEntries at h
  rcases List.mem_filterMap.mp h with ⟨c, hc, hsome⟩
  obtain ⟨n, node⟩ := c
  cases node with
  | file s =>
    simp only [Option.some.injEq] at hsome
    rw [← hsome]
    exact hc
  | dir s cs => simp at hsome

theorem mem_walkChildren (include_patterns exclude_patterns exclude_dirs : List String)
    (cs : List (String × FsNode)) (parts : List String)
    (h : parts ∈ walkChildren include_patterns exclude_patterns exclude_dirs cs) :
    ∃ n c rest, (n, c) ∈ cs ∧ keepDir exclude_dirs n c = true ∧ parts = n :: rest ∧
      rest ∈ walkNode include_patterns exclude_patterns exclude_dirs c := by
  induction cs with
  | nil => simp [walkChildren] at h
  | cons hd tl ih =>
    obtain ⟨n, c⟩ := hd
    simp only [walkChildren, List.mem_append] at h
    rcases h with h | h
    · by_cases hk : keepDir exclude_dirs n c = true
      · rw [if_pos hk] at h
        rcases List.mem_map.mp h with ⟨rest, hrest, hparts⟩
        exact ⟨n, c, rest, List.mem_cons_self _ _, hk, hparts.symm, hrest⟩
      · rw [if_neg hk] at h
        simp at h
    · obtain ⟨n', c', rest, hmem, hk, hp, hw⟩ := ih h
      exact ⟨n', c', rest, List.mem_cons_of_mem _ hmem, hk, hp, hw⟩

theorem walkNode_good (n : Nat) :
    ∀ (t : FsNode), sizeOf t ≤ n →
      ∀ (include_patterns exclude_patterns exclude_dirs : List String)
        (parts : List String),
        parts ∈ walkNode include_patterns exclude_patterns exclude_dirs t →
        GoodPath t parts := by
  induction n with
  | zero =>
    intro t ht
    exfalso
    cases t <;> simp_arith at ht
  | succ n ih =>
    intro t ht inc exc exDirs parts hmem
    cases t with
    | file s => simp [walkNode] at hmem
    | dir s children =>
      simp only [walkNode, List.mem_append] at hmem
      rcases hmem with h | h
      · rcases List.mem_map.mp h with ⟨e, he, hparts⟩
        have hf := List.mem_filter.mp he
        have hfe : e ∈ fileEntries children := by
          have hperm := List.perm_insertionSort
            (fun a b => leString a.1 b.1 = true) (fileEntries children)
          exact hperm.mem_iff.mp (by simpa [sortByName] using hf.1)
        have hchild := mem_fileEntries children e hfe
        have hsym : e.2 = false := by
          have hk := hf.2
          unfold keepFile at hk
          simp only [Bool.and_eq_true, Bool.not_eq_true'] at hk
          exact hk.1.1
        rw [← hparts]
        exact GoodPath.file s children e.1 (by rw [← hsym]; exact hchild)
      · obtain ⟨nm, c, rest, hmem', hk, hp, hw⟩ :=
          mem_walkChildren inc exc exDirs children parts h
        cases c with
        | file cf => simp [keepDir, nodeIsDir] at hk
        | dir cf ccs =>
          have hcf : cf = false := by
            unfold keepDir nodeSymlink at hk
            simp only [Bool.and_eq_true, Bool.not_eq_true'] at hk
            exact hk.2
          subst hcf
          have hsize : sizeOf (FsNode.dir false ccs) ≤ n := by
            have h1 := List.sizeOf_lt_of_mem hmem'
            have h2 : sizeOf (FsNode.dir s children) ≤ n + 1 := ht
            simp only [FsNode.dir.sizeOf_spec, Prod.mk.sizeOf_spec] at h1 h2 ⊢
            omega
          have hgood := ih (FsNode.dir false ccs) hsize inc exc exDirs rest hw
          rw [hp]
          exact GoodPath.step s children nm ccs rest hmem' hgood

/-- C7: every path returned by `scan_files` resolves, through non-symlink
directories only, to a non-symlink regular file: a symlinked file, or any
file below a symlinked directory, never appears in the output, whatever
the include/exclude filters are. -/
theorem C7_no_symlink_in_scan (rootStr : String) (t : FsNode)
    (include_patterns exclude_patterns exclude_dirs : List String)
    (parts : List String)
    (h : parts ∈ scan_files rootStr (some t) include_patterns exclude_patterns
      exclude_dirs) :
    GoodPath t parts := by
  cases t with
  | file s =>
    unfold scan_files at h
    simp [sortPaths, List.insertionSort] at h
  | dir s children =>
    have h' : parts ∈ walkNode include_patterns exclude_patterns exclude_dirs
        (FsNode.dir s children) := by
      unfold scan_files at h
      exact (mem_sortPaths rootStr _ parts).mp h
    exact walkNode_good (sizeOf (FsNode.dir s children)) _ le_rfl _ _ _ _ h'

/-- Witness for C7: in a tree with a plain file, a symlinked file, and a
symlinked directory holding a file, the scanned path `a.py` is a good
path: a non-symlink file reached through non-symlink directories. -/
theorem C7_witness :
    GoodPath
      (FsNode.dir false [("a.py", FsNode.file false), ("b.py", FsNode.file true),
        ("ln", FsNode.dir true [("c.py", FsNode.file false)])]) ["a.py"] :=
  C7_no_symlink_in_scan "r"
    (FsNode.dir false [("a.py", FsNode.file false), ("b.py", FsNode.file true),
      ("ln", FsNode.dir true [("c.py", FsNode.file false)])])
    [] [] [] ["a.py"] (by decide)

theorem keepFile_no_excl (include_patterns : List String) (e : String × Bool) :
    keepFile include_patterns [] e
      = (!e.2 && (include_patterns.isEmpty || matches_pattern e.1 include_patterns)) := by
  simp [keepFile]

theorem walkChildren_no_excl_congr (include_patterns exclude_dirs : List String)
    (cs : List (String × FsNode))
    (h : ∀ p ∈ cs, walkNode include_patterns [] exclude_dirs p.2
      = walkNodeNoExcl include_patterns exclude_dirs p.2) :
    walkChildren include_patterns [] exclude_dirs cs
      = walkChildrenNoExcl include_patterns exclude_dirs cs := by
  induction cs with
  | nil => rfl
  | cons hd tl ih =>
    obtain ⟨n, c⟩ := hd
    simp only [walkChildren, walkChildrenNoExcl]
    rw [h (n, c) (List.mem_cons_self _ _),
      ih (fun p hp => h p (List.mem_cons_of_mem _ hp))]

theorem walkNode_no_excl (n : Nat) :
    ∀ (t : FsNode), sizeOf t ≤ n → ∀ (include_patterns exclude_dirs : List String),
      walkNode include_patterns [] exclude_dirs t
        = walkNodeNoExcl include_patterns exclude_dirs t := by
  induction n with
  | zero =>
    intro t ht
    exfalso
    cases t <;> simp_arith at ht
  | succ n ih =>
    intro t ht inc exDirs
    cases t with
    | file s => rfl
    | dir s children =>
      simp only [walkNode, walkNodeNoExcl]
      congr 1
      · congr 1
        exact List.filter_congr (fun e he => keepFile_no_excl inc e)
      · refine walkChildren_no_excl_congr inc exDirs children (fun p hp => ?_)
        have h1 := List.sizeOf_lt_of_mem hp
        have h2 : sizeOf (FsNode.dir s children) ≤ n + 1 := ht
        refine ih p.2 ?_ inc exDirs
        obtain ⟨pn, pc⟩ := p
        simp only [FsNode.dir.sizeOf_spec, Prod.mk.sizeOf_spec] at h1 h2 ⊢
        omega

theorem scan_files_no_excl_eq (rootStr : String) (rootFs : Option FsNode)
    (include_patterns exclude_dirs : List String) :
    scan_files rootStr rootFs include_patterns [] exclude_dirs
      = scan_files_no_exclude rootStr rootFs include_patterns exclude_dirs := by
  cases rootFs with
  | none => rfl
  | some t =>
    cases t with
    | file s => rfl
    | dir s children =>
      exact congrArg (sortPaths rootStr)
        (walkNode_no_excl (sizeOf (FsNode.dir s children)) _ le_rfl include_patterns
          exclude_dirs)

/-- C8: `generate_file_summaries` threads only the include patterns and
the excluded directory names into `scan_files` (the exclude-pattern
argument stays at its empty default), so the records it reports are
exactly those of the no-file-exclude scan: no file is ever excluded from
the report by a file-exclude pattern. The second conjunct shows the
per-file filter with empty exclude patterns consults no exclude pattern. -/
theorem GenResult_entries_ite {c : Prop} [Decidable c] {a b : GenResult}
    {rhs : List (String × String × String)} (ha : c → a.entries = rhs)
    (hb : ¬c → b.entries = rhs) : (if c then a else b).entries = rhs := by
  split
  · exact ha ‹_›
  · exact hb ‹_›

theorem C8_no_file_exclude (rootStr : String) (rootFs : Option FsNode)
    (output_dir : String) (include_patterns exclude_dirs : List String)
    (dry_run : Bool) (writeFails : String → Bool) :
    (generate_file_summaries rootStr rootFs output_dir include_patterns exclude_dirs
        dry_run writeFails).entries
      = (scan_files_no_exclude rootStr rootFs include_patterns exclude_dirs).map
          entryOf ∧
    ∀ e : String × Bool, keepFile include_patterns [] e
      = (!e.2 && (include_patterns.isEmpty || matches_pattern e.1 include_patterns)) := by
  constructor
  · have hs := scan_files_no_excl_eq rootStr rootFs include_patterns exclude_dirs
    unfold generate_file_summaries
    rw [hs]
    by_cases h0 : (scan_files_no_exclude rootStr rootFs include_patterns
        exclude_dirs).isEmpty
    · rw [if_pos h0]
      rw [List.isEmpty_iff.mp h0]
      rfl
    · rw [if_neg h0]
      refine GenResult_entries_ite (fun _ => rfl) (fun _ => ?_)
      refine GenResult_entries_ite (fun _ => rfl) (fun _ => ?_)
      exact GenResult_entries_ite (fun _ => rfl) (fun _ => rfl)
  · exact fun e => keepFile_no_excl include_patterns e

theorem GenResult_ite (P : GenResult → Prop) (c : Prop) [Decidable c]
    (a b : GenResult) (ha : c → P a) (hb : ¬c → P b) : P (if c then a else b) := by
  split
  · exact ha ‹_›
  · exact hb ‹_›

theorem append_right_ne (a b c : String) (h : b ≠ c) : a ++ b ≠ a ++ c := by
  intro hc
  apply h
  have hd := congrArg String.data hc
  rw [String.data_append, String.data_append] at hd
  exact String.ext (List.append_cancel_left hd)

/-- C2 (amended): the two writes of `generate_file_summaries` are
sequential, markdown first: the JSON artifact is never on disk unless the
markdown artifact is, and a markdown-write failure aborts before anything
is written. The converse fails (see the counterexample): a JSON-write
failure leaves the already-written markdown artifact behind. -/
theorem C2_markdown_written_before_json (rootStr : String) (rootFs : Option FsNode)
    (output_dir : String) (include_patterns exclude_dirs : List String)
    (writeFails : String → Bool) :
    ((output_dir ++ "/file-summaries.json") ∈ (generate_file_summaries rootStr rootFs
        output_dir include_patterns exclude_dirs false writeFails).writes →
      (output_dir ++ "/file-summaries.md") ∈ (generate_file_summaries rootStr rootFs
        output_dir include_patterns exclude_dirs false writeFails).writes) ∧
    (writeFails (output_dir ++ "/file-summaries.md") = true →
      (generate_file_summaries rootStr rootFs output_dir include_patterns exclude_dirs
        false writeFails).writes = []) := by
  have H := GenResult_ite (fun g =>
    ((output_dir ++ "/file-summaries.json") ∈ g.writes →
      (output_dir ++ "/file-summaries.md") ∈ g.writes) ∧
    (writeFails (output_dir ++ "/file-summaries.md") = true → g.writes = []))
  unfold generate_file_summaries
  refine H _ _ _ ?_ ?_
  · exact fun _ => ⟨fun hj => absurd hj (List.not_mem_nil _), fun _ => rfl⟩
  · intro hne
    refine H _ _ _ ?_ ?_
    · intro hfalse
      exact absurd hfalse (by simp)
    · intro hdry
      refine H _ _ _ ?_ ?_
      · exact fun hmd => ⟨fun hj => absurd hj (List.not_mem_nil _), fun _ => rfl⟩
      · intro hmd
        refine H _ _ _ ?_ ?_
        · refine fun hjs => ⟨fun hj => ?_, fun hmd' => absurd hmd' hmd⟩
          exact absurd (List.mem_singleton.mp hj)
            (append_right_ne output_dir _ _ (by decide))
        · exact fun hjs => ⟨fun _ => List.mem_cons_self _ _,
            fun hmd' => absurd hmd' hmd⟩

/-- Counterexample to C2 as stated: with one matching file and a failing
JSON write, the markdown artifact is written and stays on disk while the
invocation fails — the text document exists without its data counterpart. -/
theorem C2_counterexample :
    (generate_file_summaries "r" (some (FsNode.dir false [("a.py", FsNode.file false)]))
        "o" [] [] false (fun p => p == "o/file-summaries.json")).writes
      = ["o/file-summaries.md"] ∧
    (generate_file_summaries "r" (some (FsNode.dir false [("a.py", FsNode.file false)]))
        "o" [] [] false (fun p => p == "o/file-summaries.json")).res
      = Except.error
          "Failed to generate file summaries: write failed: o/file-summaries.json" :=
  ⟨rfl, rfl⟩

/-- Witness for C2 (amended): on a fully successful run both artifacts are
written, and in particular the markdown artifact is on disk whenever the
JSON artifact is. -/
theorem C2_witness :
    ("o" ++ "/file-summaries.md") ∈ (generate_file_summaries "r"
      (some (FsNode.dir false [("a.py", FsNode.file false)])) "o" [] [] false
      (fun _ => false)).writes :=
  (C2_markdown_written_before_json "r" (some (FsNode.dir false
    [("a.py", FsNode.file false)])) "o" [] [] (fun _ => false)).1 (by decide)

/-- C9: in dry-run mode `generate_file_summaries` writes nothing and
succeeds, whatever the write oracle would have done; and on a non-empty
match set it reports, per artifact, the destination path and the
byte-length preview (markdown) or entry-count preview (JSON). -/
theorem C9_dry_run_no_writes (rootStr : String) (rootFs : Option FsNode)
    (output_dir : String) (include_patterns exclude_dirs : List String)
    (writeFails : String → Bool) :
    (generate_file_summaries rootStr rootFs output_dir include_patterns exclude_dirs
        true writeFails).writes = [] ∧
    (generate_file_summaries rootStr rootFs output_dir include_patterns exclude_dirs
        true writeFails).res = Except.ok () ∧
    ((generate_file_summaries rootStr rootFs output_dir include_patterns exclude_dirs
        true writeFails).entries ≠ [] →
      (generate_file_summaries rootStr rootFs output_dir include_patterns exclude_dirs
          true writeFails).previews
        = [(output_dir ++ "/file-summaries.md",
            (markdownOf (generate_file_summaries rootStr rootFs output_dir
              include_patterns exclude_dirs true writeFails).entries).length),
           (output_dir ++ "/file-summaries.json",
            (generate_file_summaries rootStr rootFs output_dir include_patterns
              exclude_dirs true writeFails).entries.length)]) := by
  have H := GenResult_ite (fun g =>
    g.writes = [] ∧ g.res = Except.ok () ∧
    (g.entries ≠ [] →
      g.previews = [(output_dir ++ "/file-summaries.md",
          (markdownOf g.entries).length),
        (output_dir ++ "/file-summaries.json", g.entries.length)]))
  unfold generate_file_summaries
  refine H _ _ _ ?_ ?_
  · exact fun _ => ⟨rfl, rfl, fun hne => absurd rfl hne⟩
  · intro hne
    refine H _ _ _ ?_ ?_
    · exact fun _ => ⟨rfl, rfl, fun _ => rfl⟩
    · intro htrue
      exact absurd rfl htrue

/-- Witness for C9: a dry run over a one-file tree, with every write
doomed to fail, still succeeds without writes and previews both artifact
destinations with their length and entry count. -/
theorem C9_witness :
    (generate_file_summaries "r" (some (FsNode.dir false [("m.py", FsNode.file false)]))
        "o" [] [] true (fun _ => true)).previews
      = [("o" ++ "/file-summaries.md",
          (markdownOf (generate_file_summaries "r"
            (some (FsNode.dir false [("m.py", FsNode.file false)])) "o" [] [] true
            (fun _ => true)).entries).length),
         ("o" ++ "/file-summaries.json",
          (generate_file_summaries "r"
            (some (FsNode.dir false [("m.py", FsNode.file false)])) "o" [] [] true
            (fun _ => true)).entries.length)] :=
  (C9_dry_run_no_writes "r" (some (FsNode.dir false [("m.py", FsNode.file false)])) "o"
    [] [] (fun _ => true)).2.2 (by decide)
